import Mathlib

/-!
Verification of the CalcPro encrypted dual-vault storage engine.

The TypeScript sources under `src/lib` (encryption.ts, storage.ts,
app-context.tsx, forensics.ts, types.ts) and the PIN-setup screen are
shallowly embedded as executable Lean functions.  Platform primitives
(the SHA-256 digest from expo-crypto, CryptoJS.PBKDF2 and CryptoJS.AES,
JSON serialization) are modelled as ideal, injective, decodable
encodings: the digest and key-derivation functions are collision-free,
the cipher recovers the plaintext exactly under the encrypting key and
fails under any other key, and the serializers accept exactly the
canonical strings this program itself writes.  All sources of
nondeterminism in the original (random salts, `Date.now()`, random id
suffixes, storage contents) are passed as explicit parameters or carried
in an explicit store state.
-/

namespace CalcPro

/-- Escape one character of an encoded run: the terminator and the escape
character are prefixed with the escape character, everything else is kept. -/
def escChar (esc term c : Char) : List Char :=
  if c = term ∨ c = esc then [esc, c] else [c]

/-- Escape a character list so that an unescaped terminator can follow it. -/
def escList (esc term : Char) : List Char → List Char
  | [] => []
  | c :: cs => escChar esc term c ++ escList esc term cs

/-- Read an escaped run up to the first unescaped terminator; returns the
decoded run and the rest of the input, or fails when no terminator closes
the run. -/
def readEsc (esc term : Char) : List Char → Option (List Char × List Char)
  | [] => none
  | c :: cs =>
    if c = esc then
      match cs with
      | [] => none
      | d :: cs2 =>
        match readEsc esc term cs2 with
        | none => none
        | some (s, r) => some (d :: s, r)
    else if c = term then some ([], cs)
    else
      match readEsc esc term cs with
      | none => none
      | some (s, r) => some (c :: s, r)

/-- Read an exact literal from the front of the input. -/
def readLit : List Char → List Char → Option (List Char)
  | [], l => some l
  | _ :: _, [] => none
  | c :: cs, d :: l => if c = d then readLit cs l else none

/-- Injective pairing of two strings, decodable from the left. -/
def pairEnc (a b : String) : String :=
  String.mk (escList '^' '|' a.data ++ '|' :: b.data)

/-- Model of the platform SHA-256 digest (`Crypto.digestStringAsync` from
expo-crypto): an ideal, collision-free one-way function, represented by an
injective tagging encoding. -/
def sha256 (s : String) : String := "sha256:" ++ s

/-- Model of `CryptoJS.PBKDF2(pin, salt, \x7bkeySize: 256/32, iterations:
10000\x7d).toString()`: deterministic in `(pin, salt)` and treated as
collision-free; the iteration count is a hardness parameter with no bearing
on the functional contract. -/
def PBKDF2 (pin salt : String) : String := "pbkdf2:" ++ pairEnc pin salt

/-- Model of `CryptoJS.AES.encrypt(data, key).toString()`: an ideal
symmetric cipher whose ciphertext yields the plaintext only together with
the encrypting key. -/
def aesEncrypt (key data : String) : String := pairEnc key data

/-- Model of `CryptoJS.AES.decrypt` followed by `.toString(CryptoJS.enc.Utf8)`:
under the encrypting key the exact plaintext is recovered; under any other
key the UTF-8 rendering of the garbage plaintext fails, which the source
turns into `null` through its falsy check and try/catch.  `none` models
that failure. -/
def aesDecrypt (key cipher : String) : Option String :=
  match readEsc '^' '|' cipher.data with
  | none => none
  | some (k, rest) => if k = key.data then some (String.mk rest) else none

/-- src/lib/encryption.ts `deriveKey`: PBKDF2 of the PIN with the given salt. -/
def deriveKey (pin salt : String) : String := PBKDF2 pin salt

/-- `JSON.stringify(\x7b salt, data \x7d)` as the source's `encrypt` produces
it: the canonical two-field JSON object, fields in insertion order. -/
def stringifyEnvelope (salt data : String) : String :=
  String.mk ("\x7b\"salt\":\"".data ++ escList '\\' '"' salt.data
    ++ "\",\"data\":\"".data ++ escList '\\' '"' data.data ++ "\"\x7d".data)

/-- Model of `JSON.parse` destructured as `\x7b salt, data \x7d` in the
source's `decrypt`: accepts exactly the canonical serialization
`stringifyEnvelope` writes, which is the only envelope shape this program
ever persists; any other payload is rejected, modelling the thrown and
caught parse failure. -/
def parseEnvelope (s : String) : Option (String × String) :=
  match readLit "\x7b\"salt\":\"".data s.data with
  | none => none
  | some l1 =>
    match readEsc '\\' '"' l1 with
    | none => none
    | some (salt, l2) =>
      match readLit ",\"data\":\"".data l2 with
      | none => none
      | some l3 =>
        match readEsc '\\' '"' l3 with
        | none => none
        | some (data, l4) =>
          if l4 = "\x7d".data then some (String.mk salt, String.mk data) else none

/-- src/lib/encryption.ts `encrypt`: derives a key from the PIN and a fresh
random salt, encrypts, and serializes the `\x7b salt, data \x7d` envelope.
The salt produced by `generateSalt()` is passed explicitly. -/
def encrypt (data pin salt : String) : String :=
  stringifyEnvelope salt (aesEncrypt (deriveKey pin salt) data)

/-- src/lib/encryption.ts `decrypt`: parses the envelope, re-derives the key
from the embedded salt, decrypts, and returns `null` (here `none`) on parse
failure, decryption failure, or an empty decrypted string (the source's
`if (!decrypted) return null` falsy check). -/
def decrypt (encryptedPayload pin : String) : Option String :=
  match parseEnvelope encryptedPayload with
  | none => none
  | some (salt, data) =>
    match aesDecrypt (deriveKey pin salt) data with
    | none => none
    | some decrypted => if decrypted = "" then none else some decrypted

/-- src/lib/encryption.ts `hashPin`: SHA-256 of the PIN concatenated with the
application-fixed domain salt. -/
def hashPin (pin : String) : String := sha256 (pin ++ "silentshield_salt_v1")

/-- src/lib/encryption.ts `generateId`: `Date.now().toString()` plus a random
base-36 suffix; the clock value and the suffix are passed explicitly. -/
def generateId (now : Int) (rand : String) : String := toString now ++ rand

/-- src/lib/types.ts `EvidenceType`. -/
inductive EvidenceType
  | photo
  | video
  | audio
  | note
deriving DecidableEq

/-- src/lib/types.ts `ForensicMetadata`.  JavaScript numbers are modelled as
integers (no claim depends on fractional values); optional fields are
`Option`s. -/
structure ForensicMetadata where
  captureTimestampISO : String
  captureTimestampUnix : Int
  timezone : String
  deviceBrand : Option String
  deviceModel : Option String
  deviceOS : Option String
  deviceOSVersion : Option String
  deviceName : Option String
  gpsLatitude : Option Int
  gpsLongitude : Option Int
  gpsAccuracy : Option Int
  locationAddress : Option String
  fileSize : Option Int
  mimeType : Option String
  duration : Option Int
  codec : Option String
  sampleRate : Option Int
  channels : Option Int
  resolution : Option String
  integrityHash : Option String
  chainOfCustodyId : String
  evidenceClassification : String
  collectionMethod : String
  isOriginal : Bool
  hasBeenModified : Bool
  tags : List String
deriving DecidableEq

/-- src/lib/types.ts `EvidenceItem`. -/
structure EvidenceItem where
  id : String
  type : EvidenceType
  title : String
  content : String
  timestamp : Int
  metadata : ForensicMetadata
  encrypted : Bool
deriving DecidableEq

/-- src/lib/types.ts `AppConfig`. -/
structure AppConfig where
  secretPinHash : String
  decoyPinHash : String
  isSetup : Bool
deriving DecidableEq

/-- The two vault identities addressed by the storage layer. -/
inductive VaultType
  | secret
  | decoy
deriving DecidableEq

/-- Result type of `verifyPin`. -/
inductive PinResult
  | secret
  | decoy
  | invalid
deriving DecidableEq

/-- The vault identity a `verifyPin` result selects, if any. -/
def PinResult.toVault : PinResult → Option VaultType
  | .secret => some VaultType.secret
  | .decoy => some VaultType.decoy
  | .invalid => none

/-! ### Canonical serialization of evidence collections

`saveEvidence` persists `JSON.stringify(items)` and `loadEvidence` recovers
the collection with `JSON.parse`.  The pair is modelled as an injective
canonical serialization together with a decoder that accepts exactly the
canonical strings: every string the program writes decodes back to the
written collection, and strings outside the canonical image are rejected,
modelling `JSON.parse` failures on non-JSON text. -/

/-- Write a string field, escaped and terminated. -/
def putString (s : String) (rest : List Char) : List Char :=
  escList '\\' '"' s.data ++ '"' :: rest

/-- Read back a string field. -/
def getString (l : List Char) : Option (String × List Char) :=
  match readEsc '\\' '"' l with
  | none => none
  | some (s, r) => some (String.mk s, r)

/-- Write a natural number field (unary, a decodable injective encoding). -/
def putNat (n : Nat) (rest : List Char) : List Char :=
  List.replicate n 'u' ++ 'z' :: rest

/-- Read back a natural number field. -/
def getNat : List Char → Option (Nat × List Char)
  | [] => none
  | c :: cs =>
    if c = 'z' then some (0, cs)
    else if c = 'u' then
      match getNat cs with
      | none => none
      | some (n, r) => some (n + 1, r)
    else none

/-- Write an integer field. -/
def putInt (n : Int) (rest : List Char) : List Char :=
  match n with
  | .ofNat m => 'p' :: putNat m rest
  | .negSucc m => 'm' :: putNat m rest

/-- Read back an integer field. -/
def getInt : List Char → Option (Int × List Char)
  | [] => none
  | c :: cs =>
    if c = 'p' then
      match getNat cs with
      | none => none
      | some (m, r) => some (Int.ofNat m, r)
    else if c = 'm' then
      match getNat cs with
      | none => none
      | some (m, r) => some (Int.negSucc m, r)
    else none

/-- Write a boolean field. -/
def putBool (b : Bool) (rest : List Char) : List Char :=
  (if b then 't' else 'f') :: rest

/-- Read back a boolean field. -/
def getBool : List Char → Option (Bool × List Char)
  | [] => none
  | c :: cs =>
    if c = 't' then some (true, cs)
    else if c = 'f' then some (false, cs)
    else none

/-- Write an optional field from a writer for the value. -/
def putOpt (put : α → List Char → List Char) : Option α → List Char → List Char
  | none, rest => 'n' :: rest
  | some a, rest => 's' :: put a rest

/-- Read back an optional field. -/
def getOpt (get : List Char → Option (α × List Char)) (l : List Char) :
    Option (Option α × List Char) :=
  match l with
  | [] => none
  | c :: cs =>
    if c = 'n' then some (none, cs)
    else if c = 's' then
      match get cs with
      | none => none
      | some (a, r) => some (some a, r)
    else none

/-- Write a list field, element by element with an end marker. -/
def putList (put : α → List Char → List Char) : List α → List Char → List Char
  | [], rest => 'e' :: rest
  | a :: as, rest => 'c' :: put a (putList put as rest)

/-- Read back a list field; `fuel` bounds the number of elements, and any
input's length is enough fuel for it. -/
def getList (get : List Char → Option (α × List Char)) :
    Nat → List Char → Option (List α × List Char)
  | _, [] => none
  | fuel, c :: cs =>
    if c = 'e' then some ([], cs)
    else if c = 'c' then
      match fuel with
      | 0 => none
      | fuel + 1 =>
        match get cs with
        | none => none
        | some (a, r) =>
          match getList get fuel r with
          | none => none
          | some (as, r2) => some (a :: as, r2)
    else none

/-- Write the `type` field. -/
def putType (t : EvidenceType) (rest : List Char) : List Char :=
  (match t with
   | .photo => 'P'
   | .video => 'V'
   | .audio => 'A'
   | .note => 'N') :: rest

/-- Read back the `type` field. -/
def getType : List Char → Option (EvidenceType × List Char)
  | [] => none
  | c :: cs =>
    if c = 'P' then some (.photo, cs)
    else if c = 'V' then some (.video, cs)
    else if c = 'A' then some (.audio, cs)
    else if c = 'N' then some (.note, cs)
    else none

/-- Serialize one `ForensicMetadata` record, field by field. -/
def putMeta (m : ForensicMetadata) (rest : List Char) : List Char :=
  putString m.captureTimestampISO <| putInt m.captureTimestampUnix <|
  putString m.timezone <| putOpt putString m.deviceBrand <|
  putOpt putString m.deviceModel <| putOpt putString m.deviceOS <|
  putOpt putString m.deviceOSVersion <| putOpt putString m.deviceName <|
  putOpt putInt m.gpsLatitude <| putOpt putInt m.gpsLongitude <|
  putOpt putInt m.gpsAccuracy <| putOpt putString m.locationAddress <|
  putOpt putInt m.fileSize <| putOpt putString m.mimeType <|
  putOpt putInt m.duration <| putOpt putString m.codec <|
  putOpt putInt m.sampleRate <| putOpt putInt m.channels <|
  putOpt putString m.resolution <| putOpt putString m.integrityHash <|
  putString m.chainOfCustodyId <| putString m.evidenceClassification <|
  putString m.collectionMethod <| putBool m.isOriginal <|
  putBool m.hasBeenModified <| putList putString m.tags rest

/-- Decode one `ForensicMetadata` record. -/
def getMeta (l : List Char) : Option (ForensicMetadata × List Char) :=
  match getString l with
  | none => none
  | some c1 =>
  match getInt c1.2 with
  | none => none
  | some c2 =>
  match getString c2.2 with
  | none => none
  | some c3 =>
  match getOpt getString c3.2 with
  | none => none
  | some c4 =>
  match getOpt getString c4.2 with
  | none => none
  | some c5 =>
  match getOpt getString c5.2 with
  | none => none
  | some c6 =>
  match getOpt getString c6.2 with
  | none => none
  | some c7 =>
  match getOpt getString c7.2 with
  | none => none
  | some c8 =>
  match getOpt getInt c8.2 with
  | none => none
  | some c9 =>
  match getOpt getInt c9.2 with
  | none => none
  | some c10 =>
  match getOpt getInt c10.2 with
  | none => none
  | some c11 =>
  match getOpt getString c11.2 with
  | none => none
  | some c12 =>
  match getOpt getInt c12.2 with
  | none => none
  | some c13 =>
  match getOpt getString c13.2 with
  | none => none
  | some c14 =>
  match getOpt getInt c14.2 with
  | none => none
  | some c15 =>
  match getOpt getString c15.2 with
  | none => none
  | some c16 =>
  match getOpt getInt c16.2 with
  | none => none
  | some c17 =>
  match getOpt getInt c17.2 with
  | none => none
  | some c18 =>
  match getOpt getString c18.2 with
  | none => none
  | some c19 =>
  match getOpt getString c19.2 with
  | none => none
  | some c20 =>
  match getString c20.2 with
  | none => none
  | some c21 =>
  match getString c21.2 with
  | none => none
  | some c22 =>
  match getString c22.2 with
  | none => none
  | some c23 =>
  match getBool c23.2 with
  | none => none
  | some c24 =>
  match getBool c24.2 with
  | none => none
  | some c25 =>
  match getList getString c25.2.length c25.2 with
  | none => none
  | some c26 =>
  some (⟨c1.1, c2.1, c3.1, c4.1, c5.1, c6.1, c7.1, c8.1, c9.1, c10.1, c11.1,
    c12.1, c13.1, c14.1, c15.1, c16.1, c17.1, c18.1, c19.1, c20.1, c21.1,
    c22.1, c23.1, c24.1, c25.1, c26.1⟩, c26.2)

/-- Serialize one `EvidenceItem`, field by field. -/
def putItem (i : EvidenceItem) (rest : List Char) : List Char :=
  putString i.id <| putType i.type <| putString i.title <|
  putString i.content <| putInt i.timestamp <| putMeta i.metadata <|
  putBool i.encrypted rest

/-- Decode one `EvidenceItem`. -/
def getItem (l : List Char) : Option (EvidenceItem × List Char) :=
  match getString l with
  | none => none
  | some c1 =>
  match getType c1.2 with
  | none => none
  | some c2 =>
  match getString c2.2 with
  | none => none
  | some c3 =>
  match getString c3.2 with
  | none => none
  | some c4 =>
  match getInt c4.2 with
  | none => none
  | some c5 =>
  match getMeta c5.2 with
  | none => none
  | some c6 =>
  match getBool c6.2 with
  | none => none
  | some c7 =>
  some (⟨c1.1, c2.1, c3.1, c4.1, c5.1, c6.1, c7.1⟩, c7.2)

/-- Model of `JSON.stringify(items)` in `saveEvidence`: the canonical
serialization of the evidence collection. -/
def encodeItems (items : List EvidenceItem) : String :=
  String.mk (putList putItem items [])

/-- Model of `JSON.parse(decrypted)` in `loadEvidence`: decodes exactly the
canonical serializations `encodeItems` writes and rejects everything else,
modelling the caught `JSON.parse` failure on malformed text. -/
def decodeItems (s : String) : Option (List EvidenceItem) :=
  match getList getItem s.data.length s.data with
  | some (items, []) => some items
  | _ => none

/-! ### Durable store (src/lib/storage.ts)

The persistent state the storage layer touches: the per-vault encrypted
file (`FileSystem`, `vault_data_<type>.enc`), the legacy AsyncStorage
evidence slots, the `_fs_ok` backup markers, and the three SecureStore
values holding the PIN hashes and the setup flag.  `docDir` models whether
`FileSystem.documentDirectory` is available.  A slot holding `none` models
an absent key/file. -/
structure Store where
  docDir : Bool
  fileSecret : Option String
  fileDecoy : Option String
  legacySecret : Option String
  legacyDecoy : Option String
  fsOkSecret : Option String
  fsOkDecoy : Option String
  secureSecretHash : Option String
  secureDecoyHash : Option String
  secureIsSetup : Option String
deriving DecidableEq

/-- Content of the evidence file `vault_data_<type>.enc` for a vault. -/
def getFile (s : Store) : VaultType → Option String
  | .secret => s.fileSecret
  | .decoy => s.fileDecoy

/-- Write the evidence file for a vault (`FileSystem.writeAsStringAsync`). -/
def setFile (s : Store) (t : VaultType) (e : String) : Store :=
  match t with
  | .secret => { s with fileSecret := some e }
  | .decoy => { s with fileDecoy := some e }

/-- Content of the legacy AsyncStorage evidence slot for a vault
(`@silentshield_evidence_secret` / `@silentshield_evidence_decoy`). -/
def getLegacy (s : Store) : VaultType → Option String
  | .secret => s.legacySecret
  | .decoy => s.legacyDecoy

/-- Set the `_fs_ok` backup marker for a vault in AsyncStorage. -/
def setFsOk (s : Store) (t : VaultType) : Store :=
  match t with
  | .secret => { s with fsOkSecret := some "true" }
  | .decoy => { s with fsOkDecoy := some "true" }

/-- src/lib/storage.ts `saveConfig`: writes both PIN hashes and the setup
flag to SecureStore. -/
def saveConfig (config : AppConfig) (s : Store) : Store :=
  { s with
    secureSecretHash := some config.secretPinHash
    secureDecoyHash := some config.decoyPinHash
    secureIsSetup := some "true" }

/-- src/lib/storage.ts `isAppSetup`: the SecureStore setup flag must hold
the string `"true"`; a read failure is caught and yields `false`. -/
def isAppSetup (s : Store) : Bool :=
  s.secureIsSetup = some "true"

/-- src/lib/storage.ts `verifyPin`: `invalid` when setup never completed;
otherwise hash the candidate once and compare it first against the stored
secret hash, then against the stored decoy hash.  A missing stored hash
(`null` from SecureStore) compares unequal to every hash string. -/
def verifyPin (pin : String) (s : Store) : PinResult :=
  if isAppSetup s = false then .invalid
  else
    let pinHash := hashPin pin
    if some pinHash = s.secureSecretHash then .secret
    else if some pinHash = s.secureDecoyHash then .decoy
    else .invalid

/-- src/lib/storage.ts `saveEvidence`: throws when the document directory is
unavailable; otherwise serializes the items, encrypts them under the PIN
with a fresh salt (explicit here), writes the envelope to the vault's file,
fully overwriting it, and then sets the `_fs_ok` marker. -/
def saveEvidence (items : List EvidenceItem) (pin salt : String) (t : VaultType)
    (s : Store) : Except String Unit × Store :=
  if s.docDir = false then
    (Except.error "[Storage] FileSystem.documentDirectory is null", s)
  else
    let encrypted := encrypt (encodeItems items) pin salt
    (Except.ok (), setFsOk (setFile s t encrypted) t)

/-- src/lib/storage.ts `loadEvidence` (the version returning
`EvidenceItem[] | null`): reads the vault's file, falling back to the
legacy AsyncStorage slot when the file does not exist; an absent or empty
blob (the source's falsy check) is a valid empty vault `[]`; a present blob
that fails to decrypt or to parse yields `null` (`none`); a successful read
from the legacy slot is opportunistically migrated into the file.  Returns
the result together with the possibly-migrated store. -/
def loadEvidence (pin : String) (t : VaultType) (s : Store) :
    Option (List EvidenceItem) × Store :=
  if s.docDir = false then (none, s)
  else
    let fileContent := getFile s t
    let encrypted := match fileContent with
      | some e => some e
      | none => getLegacy s t
    match encrypted with
    | none => (some [], s)
    | some e =>
      if e = "" then (some [], s)
      else
        match decrypt e pin with
        | none => (none, s)
        | some decrypted =>
          match decodeItems decrypted with
          | none => (none, s)
          | some items =>
            match fileContent with
            | some _ => (some items, s)
            | none => (some items, setFile s t e)

/-- src/lib/storage.ts `addEvidence`: loads the current collection; when the
load signals failure it throws and writes nothing; otherwise it prepends
(`unshift`) the new item and saves the full collection. -/
def addEvidence (item : EvidenceItem) (pin salt : String) (t : VaultType)
    (s : Store) : Except String Unit × Store :=
  match loadEvidence pin t s with
  | (none, s1) => (Except.error "Storage load failed - aborting write", s1)
  | (some items, s1) => saveEvidence (item :: items) pin salt t s1

/-- src/lib/storage.ts `deleteEvidence`: loads the current collection; when
the load signals failure it returns without writing (a no-op); otherwise it
filters out the matching id and saves the reduced collection. -/
def deleteEvidence (id : String) (pin salt : String) (t : VaultType)
    (s : Store) : Except String Unit × Store :=
  match loadEvidence pin t s with
  | (none, s1) => (Except.ok (), s1)
  | (some items, s1) => saveEvidence (items.filter (fun i => i.id != id)) pin salt t s1

/-- The blob `loadEvidence` actually reads for a vault: the file content
when the file exists, else the legacy slot; an empty string counts as no
blob, exactly as the source's falsy check treats it (and the store itself
never writes an empty blob, since every envelope is a nonempty JSON
object). -/
def currentBlob (s : Store) (t : VaultType) : Option String :=
  let encrypted := match getFile s t with
    | some e => some e
    | none => getLegacy s t
  match encrypted with
  | none => none
  | some e => if e = "" then none else some e

/-! ### Forensic metadata builder (src/lib/forensics.ts) -/

/-- The device identity record `getDeviceInfo` returns. -/
structure DeviceInfo where
  brand : String
  model : String
  os : String
  osVersion : String
  name : String
deriving DecidableEq

/-- The optional extras `buildForensicMetadata` accepts. -/
structure BuildExtras where
  fileSize : Option Int
  mimeType : Option String
  duration : Option Int
  codec : Option String
  sampleRate : Option Int
  channels : Option Int
  resolution : Option String
  gpsLatitude : Option Int
  gpsLongitude : Option Int
  gpsAccuracy : Option Int
  tags : Option (List String)
deriving DecidableEq

/-- `buildForensicMetadata` called with no extras. -/
def BuildExtras.empty : BuildExtras :=
  ⟨none, none, none, none, none, none, none, none, none, none, none⟩

/-- src/lib/forensics.ts `computeIntegrityHash`: SHA-256 of the given data
concatenated with the literal `"_integrity_"` and the clock value
`Date.now()` read at hash-computation time (passed explicitly). -/
def computeIntegrityHash (data : String) (hashNow : Int) : String :=
  sha256 (data ++ "_integrity_" ++ toString hashNow)

/-- src/lib/forensics.ts `generateChainOfCustodyId`: `COC-` plus a
time-derived component and a random component (both passed explicitly as
the already-base-36-rendered strings). -/
def generateChainOfCustodyId (timeStr randStr : String) : String :=
  "COC-" ++ timeStr ++ "-" ++ randStr

/-- src/lib/forensics.ts `getEvidenceClassification`. -/
def getEvidenceClassification (type : String) : String :=
  if type = "photo" then "Digital Photograph - Original Capture"
  else if type = "video" then "Digital Video Recording - Original Capture"
  else if type = "audio" then "Digital Audio Recording - Original Capture"
  else if type = "note" then "Written Statement / Observation Log"
  else "Digital Evidence"

/-- src/lib/forensics.ts `getCollectionMethod`. -/
def getCollectionMethod (type : String) : String :=
  if type = "photo" then "Device Camera / Image Picker"
  else if type = "video" then "Device Camera - Video Mode"
  else if type = "audio" then "Device Microphone - Direct Recording"
  else if type = "note" then "Manual Text Entry"
  else "Digital Capture"

/-- src/lib/forensics.ts `buildForensicMetadata`: stamps capture time,
timezone and device identity, and computes the integrity hash over
`type + "_" + now.toISOString() + "_" + device.model + "_" + generateId()`,
where `generateId()` is a fresh id generated inside the builder (with its
own clock value `idNow` and random suffix `idRand`), and the hash itself is
additionally salted with the clock value `hashNow` read inside
`computeIntegrityHash`.  All clock and random values are explicit. -/
def buildForensicMetadata (type : String) (extras : BuildExtras)
    (nowISO : String) (nowUnix : Int) (tz : String) (device : DeviceInfo)
    (idNow : Int) (idRand : String) (hashNow : Int)
    (cocTime cocRand : String) : ForensicMetadata :=
  let hashInput := type ++ "_" ++ nowISO ++ "_" ++ device.model ++ "_"
    ++ generateId idNow idRand
  { captureTimestampISO := nowISO
    captureTimestampUnix := nowUnix
    timezone := tz
    deviceBrand := some device.brand
    deviceModel := some device.model
    deviceOS := some device.os
    deviceOSVersion := some device.osVersion
    deviceName := some device.name
    gpsLatitude := extras.gpsLatitude
    gpsLongitude := extras.gpsLongitude
    gpsAccuracy := extras.gpsAccuracy
    locationAddress := none
    fileSize := extras.fileSize
    mimeType := extras.mimeType
    duration := extras.duration
    codec := extras.codec
    sampleRate := extras.sampleRate
    channels := extras.channels
    resolution := extras.resolution
    integrityHash := some (computeIntegrityHash hashInput hashNow)
    chainOfCustodyId := generateChainOfCustodyId cocTime cocRand
    evidenceClassification := getEvidenceClassification type
    collectionMethod := getCollectionMethod type
    isOriginal := true
    hasBeenModified := false
    tags := extras.tags.getD [type, "evidence", "original"] }

/-- The integrity hash claim C9 describes: a hash computed over a composite
of exactly the item's type, capture time, device model, and item id.  This
follows the claim's words and is compared against what the source
computes. -/
def claimedIntegrityHash (type captureISO deviceModel itemId : String) : String :=
  sha256 (type ++ "_" ++ captureISO ++ "_" ++ deviceModel ++ "_" ++ itemId)

/-! ### UI-facing wrappers (src/lib/app-context.tsx)

The provider state is a record; `Alert.alert` calls are modelled by
appending the alert title to `alerts`, so "surfaces an error" is
observable.  The wrappers below are the source's callbacks with the
storage state passed explicitly. -/

/-- src/lib/types.ts `AppMode`. -/
inductive AppMode
  | calculator
  | vault
  | setup
deriving DecidableEq

/-- The provider's React state in src/lib/app-context.tsx, plus the list of
alert dialogs shown so far. -/
structure AppState where
  mode : AppMode
  evidence : List EvidenceItem
  currentPin : String
  vaultType : Option VaultType
  alerts : List String
deriving DecidableEq

/-- src/lib/app-context.tsx `unlockVault`: verifies the PIN; on a secret or
decoy match it records the session, loads the vault, sets the evidence list
to the loaded items with a `null` result coerced to `[]`
(`setEvidence(items || [])`), enters vault mode and returns `true`;
otherwise returns `false`.  No alert is shown on either path. -/
def unlockVault (pin : String) (app : AppState) (s : Store) :
    Bool × AppState × Store :=
  match (verifyPin pin s).toVault with
  | none => (false, app, s)
  | some t =>
    let r := loadEvidence pin t s
    (true,
     { app with currentPin := pin, vaultType := some t,
                evidence := r.1.getD [], mode := .vault },
     r.2)

/-- src/lib/app-context.tsx `refreshEvidence`: a no-op without a session;
otherwise reloads the vault and sets the evidence list to the loaded items
with a `null` result coerced to `[]` (`setEvidence(items || [])`).  No
alert is shown on either path. -/
def refreshEvidence (app : AppState) (s : Store) : AppState × Store :=
  match app.vaultType with
  | none => (app, s)
  | some t =>
    if app.currentPin = "" then (app, s)
    else
      let r := loadEvidence app.currentPin t s
      ({ app with evidence := r.1.getD [] }, r.2)

/-- src/lib/app-context.tsx `addNewEvidence`: a no-op without a session;
otherwise stores the item through `addEvidence` and reloads.  A thrown save
error is caught and surfaced as a `Save Failed` alert; a failed reload is
surfaced as an `Error` alert; on success the evidence list is replaced. -/
def addNewEvidence (item : EvidenceItem) (salt : String) (app : AppState)
    (s : Store) : AppState × Store :=
  match app.vaultType with
  | none => (app, s)
  | some t =>
    if app.currentPin = "" then (app, s)
    else
      match addEvidence item app.currentPin salt t s with
      | (Except.error _, s1) => ({ app with alerts := app.alerts ++ ["Save Failed"] }, s1)
      | (Except.ok _, s1) =>
        let r := loadEvidence app.currentPin t s1
        match r.1 with
        | none => ({ app with alerts := app.alerts ++ ["Error"] }, r.2)
        | some items => ({ app with evidence := items }, r.2)

/-- src/lib/app-context.tsx `setupPins`: hashes both PINs, persists the
config through `saveConfig`, and returns to calculator mode.  It performs
no equality check itself. -/
def setupPins (secretPin decoyPin : String) (app : AppState) (s : Store) :
    AppState × Store :=
  ({ app with mode := .calculator },
   saveConfig ⟨hashPin secretPin, hashPin decoyPin, true⟩ s)

/-! ### PIN-setup screen state machine (PinSetup, src/unnamed/part_001) -/

/-- The `SetupStep` union of the PinSetup component. -/
inductive SetupStep
  | secret
  | confirmSecret
  | decoy
  | confirmDecoy
deriving DecidableEq

/-- The PinSetup component's state: the current step, the in-progress entry
`pin`, the captured `secretPin` and `decoyPin`, and the error banner. -/
structure SetupState where
  step : SetupStep
  pin : String
  secretPin : String
  decoyPin : String
  error : String
deriving DecidableEq

/-- The PinSetup component's initial state. -/
def initSetupState : SetupState :=
  ⟨.secret, "", "", "", ""⟩

/-- PinSetup `handleKeyPress` (src/unnamed/part_001): clears the error,
handles `delete`, appends the key, and on a completed 4-digit entry runs
the step transition.  The second component is the `setupPins(secret, decoy)`
call the component issues when the decoy confirmation succeeds - the only
point at which anything is hashed or stored. -/
def handleKeyPress (st : SetupState) (key : String) :
    SetupState × Option (String × String) :=
  let st := { st with error := "" }
  if key = "delete" then ({ st with pin := st.pin.dropRight 1 }, none)
  else
    let newPin := st.pin ++ key
    if 4 < newPin.length then (st, none)
    else
      let st := { st with pin := newPin }
      if newPin.length = 4 then
        match st.step with
        | .secret =>
          ({ st with secretPin := newPin, pin := "", step := .confirmSecret }, none)
        | .confirmSecret =>
          if newPin = st.secretPin then
            ({ st with pin := "", step := .decoy }, none)
          else
            ({ st with pin := "", error := "PINs do not match",
                       step := .secret, secretPin := "" }, none)
        | .decoy =>
          if newPin = st.secretPin then
            ({ st with pin := "", error := "Must differ from secret PIN" }, none)
          else
            ({ st with decoyPin := newPin, pin := "", step := .confirmDecoy }, none)
        | .confirmDecoy =>
          if newPin = st.decoyPin then (st, some (st.secretPin, newPin))
          else
            ({ st with pin := "", error := "PINs do not match",
                       step := .decoy, decoyPin := "" }, none)
      else (st, none)

/-- States of the PinSetup component reachable from its initial state by
key presses. -/
inductive SetupReachable : SetupState → Prop
  | init : SetupReachable initSetupState
  | step (st : SetupState) (k : String) :
      SetupReachable st → SetupReachable (handleKeyPress st k).1

/-- The transition rule of §4.3 of the spec, stated in the spec's own words
over the stored configuration: if the app has never completed setup every
PIN is invalid; otherwise compute the candidate's hash once and compare it
against the secret hash, then against the decoy hash. -/
def verifyPinSpec (pin : String) (s : Store) : PinResult :=
  if isAppSetup s = false then .invalid
  else
    let candidateHash := hashPin pin
    if some candidateHash = s.secureSecretHash then .secret
    else if some candidateHash = s.secureDecoyHash then .decoy
    else .invalid

/-- A store with nothing persisted and the document directory available. -/
def emptyStore : Store :=
  ⟨true, none, none, none, none, none, none, none, none, none⟩

/-- A concrete metadata record for the concrete checks below. -/
def sampleMeta : ForensicMetadata :=
  ⟨"2024-01-01T00:00:00.000Z", 0, "UTC", none, none, none, none, none, none,
   none, none, none, none, none, none, none, none, none, none,
   some "sha256:x", "COC-1-A", "c", "m", true, false, []⟩

/-- A concrete evidence item for the concrete checks below. -/
def sampleItem : EvidenceItem :=
  ⟨"id1", .note, "first", "body one", 0, sampleMeta, true⟩

/-- A second concrete evidence item. -/
def sampleItem2 : EvidenceItem :=
  ⟨"id2", .photo, "second", "p.jpg", 1, sampleMeta, true⟩

/-- A third concrete evidence item. -/
def sampleItem3 : EvidenceItem :=
  ⟨"id3", .audio, "third", "a.m4a", 2, sampleMeta, true⟩

/-! ### Helper lemmas -/

theorem data_mk (l : List Char) : (String.mk l).data = l := rfl

theorem mk_data : ∀ s : String, String.mk s.data = s
  | ⟨_⟩ => rfl

theorem data_append (a b : String) : (a ++ b).data = a.data ++ b.data := rfl

theorem readEsc_escList (esc term : Char) (h : esc ≠ term) (s rest : List Char) :
    readEsc esc term (escList esc term s ++ term :: rest) = some (s, rest) := by
  induction s with
  | nil =>
    simp only [escList, List.nil_append]
    rw [readEsc.eq_def]
    simp [Ne.symm h]
  | cons c cs ih =>
    by_cases hc : c = term ∨ c = esc
    · simp only [escList, escChar, if_pos hc, List.cons_append, List.append_assoc,
        List.nil_append]
      rw [readEsc.eq_def]
      simp [ih]
    · push_neg at hc
      simp only [escList, escChar, hc.1, hc.2, or_self, if_false, List.cons_append,
        List.nil_append]
      rw [readEsc.eq_def]
      simp [hc.1, hc.2, ih]

theorem readLit_append (lit rest : List Char) :
    readLit lit (lit ++ rest) = some rest := by
  induction lit with
  | nil => rfl
  | cons c cs ih => simp [readLit, ih]

theorem parseEnvelope_stringifyEnvelope (salt data : String) :
    parseEnvelope (stringifyEnvelope salt data) = some (salt, data) := by
  have hq : ('\\' : Char) ≠ '"' := by decide
  have h1 : ("\",\"data\":\"".data : List Char) = '"' :: ",\"data\":\"".data := rfl
  have h2 : ("\"\x7d".data : List Char) = '"' :: "\x7d".data := rfl
  simp only [parseEnvelope, stringifyEnvelope, data_mk, h1, h2, List.append_assoc,
    List.cons_append]
  simp [readLit, readEsc_escList _ _ hq, mk_data]

theorem pairEnc_parts (a b a2 b2 : String) (h : pairEnc a b = pairEnc a2 b2) :
    a = a2 ∧ b = b2 := by
  have hp : ('^' : Char) ≠ '|' := by decide
  have h2 : escList '^' '|' a.data ++ '|' :: b.data
      = escList '^' '|' a2.data ++ '|' :: b2.data :=
    congrArg String.data h
  have ha := readEsc_escList '^' '|' hp a.data b.data
  have hb := readEsc_escList '^' '|' hp a2.data b2.data
  rw [h2, hb] at ha
  simp only [Option.some.injEq, Prod.mk.injEq] at ha
  exact ⟨(String.ext ha.1).symm, (String.ext ha.2).symm⟩

theorem aesDecrypt_aesEncrypt (key m : String) :
    aesDecrypt key (aesEncrypt key m) = some m := by
  have hp : ('^' : Char) ≠ '|' := by decide
  simp only [aesDecrypt, aesEncrypt, pairEnc, data_mk]
  simp [readEsc_escList _ _ hp, mk_data]

theorem aesDecrypt_wrongKey (key key2 m : String) (h : key ≠ key2) :
    aesDecrypt key2 (aesEncrypt key m) = none := by
  have hp : ('^' : Char) ≠ '|' := by decide
  have hd : key.data ≠ key2.data := fun hc => h (String.ext hc)
  simp only [aesDecrypt, aesEncrypt, pairEnc, data_mk]
  simp [readEsc_escList _ _ hp, hd]

theorem deriveKey_inj_pin (p1 p2 salt : String)
    (h : deriveKey p1 salt = deriveKey p2 salt) : p1 = p2 := by
  simp only [deriveKey, PBKDF2] at h
  have h2 : pairEnc p1 salt = pairEnc p2 salt := by
    have := congrArg String.data h
    simp only [data_append] at this
    exact String.ext (List.append_cancel_left this)
  exact (pairEnc_parts _ _ _ _ h2).1

theorem decrypt_encrypt (m pin salt : String) (h : m ≠ "") :
    decrypt (encrypt m pin salt) pin = some m := by
  simp only [decrypt, encrypt, parseEnvelope_stringifyEnvelope,
    aesDecrypt_aesEncrypt, if_neg h]

theorem decrypt_encrypt_wrongPin (m p1 p2 salt : String) (h : p1 ≠ p2) :
    decrypt (encrypt m p1 salt) p2 = none := by
  simp only [decrypt, encrypt, parseEnvelope_stringifyEnvelope]
  rw [aesDecrypt_wrongKey _ _ _
    (fun hk => h (deriveKey_inj_pin _ _ _ hk))]

theorem hashPin_inj (a b : String) (h : hashPin a = hashPin b) : a = b := by
  simp only [hashPin, sha256] at h
  have h2 := congrArg String.data h
  simp only [data_append] at h2
  have h3 := List.append_cancel_left h2
  exact String.ext (List.append_cancel_right h3)

theorem getString_putString (s : String) (rest : List Char) :
    getString (putString s rest) = some (s, rest) := by
  have hq : ('\\' : Char) ≠ '"' := by decide
  simp [getString, putString, readEsc_escList _ _ hq, mk_data]

theorem getNat_putNat (n : Nat) (rest : List Char) :
    getNat (putNat n rest) = some (n, rest) := by
  induction n with
  | zero =>
    simp only [putNat, List.replicate, List.nil_append]
    rw [getNat.eq_def]
    simp
  | succ n ih =>
    simp only [putNat, List.replicate, List.cons_append]
    rw [getNat.eq_def]
    simp only [putNat] at ih
    simp [ih]

theorem getInt_putInt (n : Int) (rest : List Char) :
    getInt (putInt n rest) = some (n, rest) := by
  cases n with
  | ofNat m =>
    simp only [putInt]
    rw [getInt.eq_def]
    simp [getNat_putNat]
  | negSucc m =>
    simp only [putInt]
    rw [getInt.eq_def]
    simp [getNat_putNat]

theorem getBool_putBool (b : Bool) (rest : List Char) :
    getBool (putBool b rest) = some (b, rest) := by
  cases b <;> (simp only [putBool]; rw [getBool.eq_def]; simp)

theorem getOpt_putOpt (get : List Char → Option (α × List Char))
    (put : α → List Char → List Char)
    (hrt : ∀ a r, get (put a r) = some (a, r)) (o : Option α) (rest : List Char) :
    getOpt get (putOpt put o rest) = some (o, rest) := by
  cases o <;> simp [putOpt, getOpt, hrt]

theorem getOptString_putOptString (o : Option String) (rest : List Char) :
    getOpt getString (putOpt putString o rest) = some (o, rest) :=
  getOpt_putOpt _ _ getString_putString o rest

theorem getOptInt_putOptInt (o : Option Int) (rest : List Char) :
    getOpt getInt (putOpt putInt o rest) = some (o, rest) :=
  getOpt_putOpt _ _ getInt_putInt o rest

theorem getType_putType (t : EvidenceType) (rest : List Char) :
    getType (putType t rest) = some (t, rest) := by
  cases t <;> (simp only [putType]; rw [getType.eq_def]; simp)

theorem getList_putList (get : List Char → Option (α × List Char))
    (put : α → List Char → List Char)
    (hrt : ∀ a r, get (put a r) = some (a, r))
    (as : List α) (rest : List Char) (fuel : Nat) (hf : as.length ≤ fuel) :
    getList get fuel (putList put as rest) = some (as, rest) := by
  induction as generalizing fuel rest with
  | nil =>
    simp only [putList]
    rw [getList.eq_def]
    simp
  | cons a as ih =>
    obtain ⟨fuel2, rfl⟩ : ∃ f, fuel = f + 1 :=
      ⟨fuel - 1, by simp at hf; omega⟩
    simp only [putList]
    rw [getList.eq_def]
    simp only [List.length_cons, Nat.add_le_add_iff_right] at hf
    simp [hrt, ih _ _ hf]

theorem putString_le (s : String) (r : List Char) :
    r.length ≤ (putString s r).length := by
  simp [putString]
  omega

theorem putNat_le (n : Nat) (r : List Char) :
    r.length ≤ (putNat n r).length := by
  simp [putNat]
  omega

theorem putInt_le (n : Int) (r : List Char) :
    r.length ≤ (putInt n r).length := by
  cases n <;> simp [putInt, putNat] <;> omega

theorem putBool_le (b : Bool) (r : List Char) :
    r.length ≤ (putBool b r).length := by
  cases b <;> simp [putBool]

theorem putType_le (t : EvidenceType) (r : List Char) :
    r.length ≤ (putType t r).length := by
  cases t <;> simp [putType]

theorem putOpt_le (put : α → List Char → List Char)
    (hg : ∀ a r, r.length ≤ (put a r).length) (o : Option α) (r : List Char) :
    r.length ≤ (putOpt put o r).length := by
  cases o with
  | none => simp [putOpt]
  | some a =>
    simp only [putOpt, List.length_cons]
    exact le_trans (hg a r) (Nat.le_succ _)

theorem putList_rest_le (put : α → List Char → List Char)
    (hg : ∀ a r, r.length ≤ (put a r).length) (as : List α) (r : List Char) :
    r.length ≤ (putList put as r).length := by
  induction as with
  | nil => simp [putList]
  | cons a as ih =>
    simp only [putList, List.length_cons]
    exact le_trans ih (le_trans (hg a _) (Nat.le_succ _))

theorem putList_count_le (put : α → List Char → List Char)
    (hg : ∀ a r, r.length ≤ (put a r).length) (as : List α) (r : List Char) :
    as.length ≤ (putList put as r).length := by
  induction as with
  | nil => simp [putList]
  | cons a as ih =>
    simp only [putList, List.length_cons]
    exact Nat.succ_le_succ (le_trans ih (hg a _))

theorem getList_putList_self (get : List Char → Option (α × List Char))
    (put : α → List Char → List Char)
    (hrt : ∀ a r, get (put a r) = some (a, r))
    (hg : ∀ a r, r.length ≤ (put a r).length)
    (as : List α) (rest : List Char) :
    getList get (putList put as rest).length (putList put as rest) = some (as, rest) :=
  getList_putList get put hrt as rest _ (putList_count_le put hg as rest)

theorem getListString_self (ts : List String) (rest : List Char) :
    getList getString (putList putString ts rest).length (putList putString ts rest)
      = some (ts, rest) :=
  getList_putList_self _ _ getString_putString putString_le ts rest

theorem getMeta_putMeta (m : ForensicMetadata) (rest : List Char) :
    getMeta (putMeta m rest) = some (m, rest) := by
  simp only [putMeta, getMeta, getString_putString, getInt_putInt,
    getOptString_putOptString, getOptInt_putOptInt, getBool_putBool,
    getListString_self]

theorem putMeta_le (m : ForensicMetadata) (r : List Char) :
    r.length ≤ (putMeta m r).length := by
  simp only [putMeta]
  refine le_trans ?_ (putString_le _ _)
  refine le_trans ?_ (putInt_le _ _)
  refine le_trans ?_ (putString_le _ _)
  refine le_trans ?_ (putOpt_le _ putString_le _ _)
  refine le_trans ?_ (putOpt_le _ putString_le _ _)
  refine le_trans ?_ (putOpt_le _ putString_le _ _)
  refine le_trans ?_ (putOpt_le _ putString_le _ _)
  refine le_trans ?_ (putOpt_le _ putString_le _ _)
  refine le_trans ?_ (putOpt_le _ putInt_le _ _)
  refine le_trans ?_ (putOpt_le _ putInt_le _ _)
  refine le_trans ?_ (putOpt_le _ putInt_le _ _)
  refine le_trans ?_ (putOpt_le _ putString_le _ _)
  refine le_trans ?_ (putOpt_le _ putInt_le _ _)
  refine le_trans ?_ (putOpt_le _ putString_le _ _)
  refine le_trans ?_ (putOpt_le _ putInt_le _ _)
  refine le_trans ?_ (putOpt_le _ putString_le _ _)
  refine le_trans ?_ (putOpt_le _ putInt_le _ _)
  refine le_trans ?_ (putOpt_le _ putInt_le _ _)
  refine le_trans ?_ (putOpt_le _ putString_le _ _)
  refine le_trans ?_ (putOpt_le _ putString_le _ _)
  refine le_trans ?_ (putString_le _ _)
  refine le_trans ?_ (putString_le _ _)
  refine le_trans ?_ (putString_le _ _)
  refine le_trans ?_ (putBool_le _ _)
  refine le_trans ?_ (putBool_le _ _)
  exact putList_rest_le _ putString_le _ _

theorem getItem_putItem (i : EvidenceItem) (rest : List Char) :
    getItem (putItem i rest) = some (i, rest) := by
  simp only [putItem, getItem, getString_putString, getType_putType,
    getInt_putInt, getMeta_putMeta, getBool_putBool]

theorem putItem_le (i : EvidenceItem) (r : List Char) :
    r.length ≤ (putItem i r).length := by
  simp only [putItem]
  refine le_trans ?_ (putString_le _ _)
  refine le_trans ?_ (putType_le _ _)
  refine le_trans ?_ (putString_le _ _)
  refine le_trans ?_ (putString_le _ _)
  refine le_trans ?_ (putInt_le _ _)
  refine le_trans ?_ (putMeta_le _ _)
  exact putBool_le _ _

theorem decodeItems_encodeItems (items : List EvidenceItem) :
    decodeItems (encodeItems items) = some items := by
  simp only [decodeItems, encodeItems, data_mk,
    getList_putList_self _ _ getItem_putItem putItem_le items []]

theorem encodeItems_ne_empty (items : List EvidenceItem) :
    encodeItems items ≠ "" := by
  intro h
  have h2 := congrArg String.data h
  cases items <;> simp [encodeItems, putList] at h2

theorem encrypt_ne_empty (m pin salt : String) : encrypt m pin salt ≠ "" := by
  intro h
  have h2 := congrArg String.data h
  simp [encrypt, stringifyEnvelope, data_mk] at h2

theorem getFile_setFile (s : Store) (t : VaultType) (e : String) :
    getFile (setFile s t e) t = some e := by
  cases t <;> simp [getFile, setFile]

theorem docDir_setFile (s : Store) (t : VaultType) (e : String) :
    (setFile s t e).docDir = s.docDir := by
  cases t <;> rfl

theorem docDir_setFsOk (s : Store) (t : VaultType) :
    (setFsOk s t).docDir = s.docDir := by
  cases t <;> rfl

theorem getFile_setFsOk (s : Store) (t t2 : VaultType) :
    getFile (setFsOk s t2) t = getFile s t := by
  cases t <;> cases t2 <;> rfl

theorem loadEvidence_none_eq (pin : String) (t : VaultType) (s : Store)
    (h : (loadEvidence pin t s).1 = none) : loadEvidence pin t s = (none, s) := by
  by_cases hd : s.docDir = false
  · simp [loadEvidence, hd]
  · rcases hg : getFile s t with _ | e
    · rcases hleg : getLegacy s t with _ | e
      · simp [loadEvidence, hd, hg, hleg] at h
      · by_cases he : e = ""
        · simp [loadEvidence, hd, hg, hleg, he] at h
        · rcases hdec : decrypt e pin with _ | d
          · simp [loadEvidence, hd, hg, hleg, he, hdec]
          · rcases hitems : decodeItems d with _ | items
            · simp [loadEvidence, hd, hg, hleg, he, hdec, hitems]
            · simp [loadEvidence, hd, hg, hleg, he, hdec, hitems] at h
    · by_cases he : e = ""
      · simp [loadEvidence, hd, hg, he] at h
      · rcases hdec : decrypt e pin with _ | d
        · simp [loadEvidence, hd, hg, he, hdec]
        · rcases hitems : decodeItems d with _ | items
          · simp [loadEvidence, hd, hg, he, hdec, hitems]
          · simp [loadEvidence, hd, hg, he, hdec, hitems] at h

theorem loadEvidence_docDir (pin : String) (t : VaultType) (s : Store) :
    (loadEvidence pin t s).2.docDir = s.docDir := by
  by_cases hd : s.docDir = false
  · simp [loadEvidence, hd]
  · rcases hg : getFile s t with _ | e
    · rcases hleg : getLegacy s t with _ | e
      · simp [loadEvidence, hd, hg, hleg]
      · by_cases he : e = ""
        · simp [loadEvidence, hd, hg, hleg, he]
        · rcases hdec : decrypt e pin with _ | d
          · simp [loadEvidence, hd, hg, hleg, he, hdec]
          · rcases hitems : decodeItems d with _ | items
            · simp [loadEvidence, hd, hg, hleg, he, hdec, hitems]
            · simp [loadEvidence, hd, hg, hleg, he, hdec, hitems, docDir_setFile]
    · by_cases he : e = ""
      · simp [loadEvidence, hd, hg, he]
      · rcases hdec : decrypt e pin with _ | d
        · simp [loadEvidence, hd, hg, he, hdec]
        · rcases hitems : decodeItems d with _ | items
          · simp [loadEvidence, hd, hg, he, hdec, hitems]
          · simp [loadEvidence, hd, hg, he, hdec, hitems]

theorem loadEvidence_some_docDir (pin : String) (t : VaultType) (s : Store)
    (items : List EvidenceItem) (h : (loadEvidence pin t s).1 = some items) :
    s.docDir = true := by
  by_cases hd : s.docDir = false
  · simp [loadEvidence, hd] at h
  · simp only [Bool.not_eq_false] at hd
    exact hd

theorem saveEvidence_eq (items : List EvidenceItem) (pin salt : String)
    (t : VaultType) (s : Store) (hd : s.docDir = true) :
    saveEvidence items pin salt t s
      = (Except.ok (), setFsOk (setFile s t (encrypt (encodeItems items) pin salt)) t) := by
  simp [saveEvidence, hd]

theorem loadEvidence_after_save (pin salt : String) (t : VaultType) (s : Store)
    (items : List EvidenceItem) (hd : s.docDir = true) :
    loadEvidence pin t (setFsOk (setFile s t (encrypt (encodeItems items) pin salt)) t)
      = (some items, setFsOk (setFile s t (encrypt (encodeItems items) pin salt)) t) := by
  have hdd : (setFsOk (setFile s t (encrypt (encodeItems items) pin salt)) t).docDir = true := by
    rw [docDir_setFsOk, docDir_setFile]
    exact hd
  have hf : getFile (setFsOk (setFile s t (encrypt (encodeItems items) pin salt)) t) t
      = some (encrypt (encodeItems items) pin salt) := by
    rw [getFile_setFsOk, getFile_setFile]
  have hne := encrypt_ne_empty (encodeItems items) pin salt
  have hdec := decrypt_encrypt (encodeItems items) pin salt (encodeItems_ne_empty items)
  simp only [loadEvidence, hdd, Bool.true_eq_false, if_false, hf, hne, hdec,
    decodeItems_encodeItems]

theorem handleKeyPress_effect (st : SetupState) (k : String) (sp dp : String)
    (h : (handleKeyPress st k).2 = some (sp, dp)) :
    st.step = .confirmDecoy ∧ sp = st.secretPin ∧ dp = st.decoyPin := by
  rcases hst : st.step <;>
    simp only [handleKeyPress, hst] at h <;>
    split_ifs at h <;>
    simp_all

theorem setup_confirmDecoy_ne (st : SetupState) (hr : SetupReachable st) :
    st.step = .confirmDecoy → st.decoyPin ≠ st.secretPin := by
  induction hr with
  | init =>
    intro h
    simp [initSetupState] at h
  | step st k hprev ih =>
    intro h
    rcases hst : st.step
    case secret =>
      simp only [handleKeyPress, hst] at h ⊢
      split_ifs at h ⊢ <;> simp_all
    case confirmSecret =>
      simp only [handleKeyPress, hst] at h ⊢
      split_ifs at h ⊢ <;> simp_all
    case decoy =>
      simp only [handleKeyPress, hst] at h ⊢
      split_ifs at h ⊢ <;> simp_all
    case confirmDecoy =>
      have hne := ih hst
      simp only [handleKeyPress, hst] at h ⊢
      split_ifs at h ⊢ <;> simp_all

theorem handleKeyPress_decoy_reject (st : SetupState) (k : String)
    (hstep : st.step = .decoy) (hlen : (st.pin ++ k).length = 4)
    (hk : k ≠ "delete") (heq : st.pin ++ k = st.secretPin) :
    handleKeyPress st k = ({ st with pin := "", error := "Must differ from secret PIN" }, none) := by
  have hsl : st.secretPin.length = 4 := heq ▸ hlen
  simp [handleKeyPress, hk, hlen, hsl, hstep, heq]

/-! ### Claims -/

/-- C3, counterexample: the round-trip `decrypt(encrypt(m, p), p) = m` fails
for the empty plaintext: `decrypt` treats an empty decrypted string as a
failure (`if (!decrypted) return null`), so encrypting `""` and decrypting
with the same PIN yields `null`, not `""`. -/
theorem c3_counterexample :
    decrypt (encrypt "" "1234" "AbCdEfGhIjKlMnOp") "1234" = none := by
  decide

/-- C3, amended: for every PIN string `p`, every salt, and every nonempty
plaintext `m`, `decrypt(encrypt(m, p), p) = m`.  The empty plaintext is the
only exception: the source's falsy check maps it to the failure signal. -/
theorem c3_round_trip (p m salt : String) (h : m ≠ "") :
    decrypt (encrypt m p salt) p = some m :=
  decrypt_encrypt m p salt h

theorem c3_round_trip_witness :
    ("hello" : String) ≠ "" ∧
      decrypt (encrypt "hello" "1234" "AbCdEfGhIjKlMnOp") "1234" = some "hello" :=
  ⟨by decide, c3_round_trip "1234" "hello" "AbCdEfGhIjKlMnOp" (by decide)⟩

/-- C6: for every plaintext `m`, every salt, and every pair of distinct PIN
strings `p1 ≠ p2`, `decrypt(encrypt(m, p1), p2) = null`: the key re-derived
from the embedded salt and the wrong PIN differs from the encrypting key,
so the cipher (modelled as ideal) fails and `decrypt` returns the failure
signal. -/
theorem c6_wrong_key (m p1 p2 salt : String) (h : p1 ≠ p2) :
    decrypt (encrypt m p1 salt) p2 = none :=
  decrypt_encrypt_wrongPin m p1 p2 salt h

theorem c6_wrong_key_witness :
    ("1111" : String) ≠ "2222" ∧
      decrypt (encrypt "secret data" "1111" "QqWwEeRrTtYyUuIi") "2222" = none :=
  ⟨by decide, c6_wrong_key "secret data" "1111" "2222" "QqWwEeRrTtYyUuIi" (by decide)⟩

/-- C5: `verifyPin` implements the spec's transition rule exactly - hash the
candidate once, compare first against the stored secret hash, then against
the stored decoy hash, else `invalid` - and when setup has never completed
(the SecureStore setup flag does not hold `"true"`), every PIN is
`invalid`. -/
theorem c5_verify_pin (pin : String) (s : Store) :
    verifyPin pin s = verifyPinSpec pin s
      ∧ (isAppSetup s = false → verifyPin pin s = .invalid) := by
  refine ⟨rfl, fun h => ?_⟩
  simp [verifyPin, h]

theorem c5_verify_pin_witness :
    (verifyPin "1234" emptyStore = verifyPinSpec "1234" emptyStore
        ∧ (isAppSetup emptyStore = false → verifyPin "1234" emptyStore = PinResult.invalid))
      ∧ verifyPin "1234" emptyStore = PinResult.invalid :=
  ⟨c5_verify_pin "1234" emptyStore, (c5_verify_pin "1234" emptyStore).2 (by decide)⟩

/-- C10: when the stored secret hash and the stored decoy hash are both equal
to the candidate's hash (a corrupted or duplicated configuration),
`verifyPin` returns `secret`: the secret comparison is performed first and
short-circuits the decoy comparison. -/
theorem c10_secret_precedence (pin : String) (s : Store)
    (hsetup : isAppSetup s = true)
    (hsec : s.secureSecretHash = some (hashPin pin))
    (hdec : s.secureDecoyHash = some (hashPin pin)) :
    verifyPin pin s = .secret := by
  simp [verifyPin, hsetup, hsec]

theorem c10_secret_precedence_witness :
    isAppSetup { emptyStore with
        secureIsSetup := some "true",
        secureSecretHash := some (hashPin "1234"),
        secureDecoyHash := some (hashPin "1234") } = true
    ∧ verifyPin "1234" { emptyStore with
        secureIsSetup := some "true",
        secureSecretHash := some (hashPin "1234"),
        secureDecoyHash := some (hashPin "1234") } = PinResult.secret :=
  ⟨by decide,
   c10_secret_precedence "1234" _ (by decide) (by decide) (by decide)⟩

/-- C1: for every PIN, vault identity and store state in which `loadEvidence`
returns the failure signal, `addEvidence` aborts with the thrown error and
`deleteEvidence` returns as a no-op, and in both cases the entire store -
in particular the persisted encrypted blob of that vault - is left
byte-for-byte unchanged: no `saveEvidence` write occurs. -/
theorem c1_no_data_loss (pin : String) (t : VaultType) (s : Store)
    (item : EvidenceItem) (delId salt : String)
    (h : (loadEvidence pin t s).1 = none) :
    addEvidence item pin salt t s
        = (Except.error "Storage load failed - aborting write", s)
      ∧ deleteEvidence delId pin salt t s = (Except.ok (), s) := by
  have heq := loadEvidence_none_eq pin t s h
  exact ⟨by simp [addEvidence, heq], by simp [deleteEvidence, heq]⟩

theorem c1_no_data_loss_witness :
    (loadEvidence "1234" VaultType.secret
        { emptyStore with fileSecret := some "corrupted-blob" }).1 = none
    ∧ (addEvidence sampleItem "1234" "SsAaLlTt" VaultType.secret
          { emptyStore with fileSecret := some "corrupted-blob" }
        = (Except.error "Storage load failed - aborting write",
           { emptyStore with fileSecret := some "corrupted-blob" })
      ∧ deleteEvidence "id1" "1234" "SsAaLlTt" VaultType.secret
          { emptyStore with fileSecret := some "corrupted-blob" }
        = (Except.ok (), { emptyStore with fileSecret := some "corrupted-blob" })) :=
  ⟨by decide,
   c1_no_data_loss "1234" VaultType.secret _ sampleItem "id1" "SsAaLlTt" (by decide)⟩

/-- C2: for every PIN and vault identity, when the slot the load path reads
holds no blob (file and legacy slot absent, or holding the empty string the
source's falsy check treats as absent) and storage is available,
`loadEvidence` returns the valid empty vault `[]`; and whenever a blob is
present but fails to decrypt, or decrypts to text the JSON parse rejects,
`loadEvidence` returns the distinguished failure signal `none` - never an
empty collection. -/
theorem c2_load_contract (pin : String) (t : VaultType) (s : Store) :
    (s.docDir = true → currentBlob s t = none → (loadEvidence pin t s).1 = some [])
    ∧ (∀ e, currentBlob s t = some e →
        (decrypt e pin = none ∨ ∃ d, decrypt e pin = some d ∧ decodeItems d = none) →
        (loadEvidence pin t s).1 = none) := by
  constructor
  · intro hdoc hb
    rcases hg : getFile s t with _ | e
    · rcases hleg : getLegacy s t with _ | e
      · simp [loadEvidence, hdoc, hg, hleg]
      · simp only [currentBlob, hg, hleg] at hb
        by_cases he : e = ""
        · simp [loadEvidence, hdoc, hg, hleg, he]
        · simp [he] at hb
    · simp only [currentBlob, hg] at hb
      by_cases he : e = ""
      · simp [loadEvidence, hdoc, hg, he]
      · simp [he] at hb
  · intro e hb hfail
    by_cases hdoc : s.docDir = false
    · simp [loadEvidence, hdoc]
    · rcases hg : getFile s t with _ | e2
      · rcases hleg : getLegacy s t with _ | e2
        · simp [currentBlob, hg, hleg] at hb
        · simp only [currentBlob, hg, hleg] at hb
          by_cases he : e2 = ""
          · simp [he] at hb
          · simp only [he, if_false, Option.some.injEq] at hb
            subst hb
            rcases hfail with hf | ⟨d, hf, hpar⟩
            · simp [loadEvidence, hdoc, hg, hleg, he, hf]
            · simp [loadEvidence, hdoc, hg, hleg, he, hf, hpar]
      · simp only [currentBlob, hg] at hb
        by_cases he : e2 = ""
        · simp [he] at hb
        · simp only [he, if_false, Option.some.injEq] at hb
          subst hb
          rcases hfail with hf | ⟨d, hf, hpar⟩
          · simp [loadEvidence, hdoc, hg, he, hf]
          · simp [loadEvidence, hdoc, hg, he, hf, hpar]

theorem c2_load_contract_witness :
    (emptyStore.docDir = true ∧ currentBlob emptyStore VaultType.secret = none
      ∧ (loadEvidence "1234" VaultType.secret emptyStore).1 = some [])
    ∧ (currentBlob { emptyStore with fileSecret := some "corrupted-blob" }
          VaultType.secret = some "corrupted-blob"
      ∧ decrypt "corrupted-blob" "1234" = none
      ∧ (loadEvidence "1234" VaultType.secret
          { emptyStore with fileSecret := some "corrupted-blob" }).1 = none) :=
  ⟨⟨by decide, by decide,
    (c2_load_contract "1234" VaultType.secret emptyStore).1 (by decide) (by decide)⟩,
   ⟨by decide, by decide,
    (c2_load_contract "1234" VaultType.secret
        { emptyStore with fileSecret := some "corrupted-blob" }).2
      "corrupted-blob" (by decide) (Or.inl (by decide))⟩⟩

/-- C8: `addEvidence` prepends the new item to the loaded collection before
saving, so from any store state whose load succeeds with collection
`prior`, adding items A, then B, then C succeeds and a final load yields
`C :: B :: A :: prior` - list order `[C, B, A]` ahead of the prior items,
newest first by insertion. -/
theorem c8_prepend_order (pin : String) (t : VaultType) (s : Store)
    (salt1 salt2 salt3 : String) (a b c : EvidenceItem)
    (prior : List EvidenceItem)
    (h : (loadEvidence pin t s).1 = some prior) :
    (addEvidence a pin salt1 t s).1 = Except.ok ()
    ∧ (addEvidence b pin salt2 t (addEvidence a pin salt1 t s).2).1 = Except.ok ()
    ∧ (addEvidence c pin salt3 t
        (addEvidence b pin salt2 t (addEvidence a pin salt1 t s).2).2).1 = Except.ok ()
    ∧ (loadEvidence pin t
        (addEvidence c pin salt3 t
          (addEvidence b pin salt2 t (addEvidence a pin salt1 t s).2).2).2).1
      = some (c :: b :: a :: prior) := by
  have hd := loadEvidence_some_docDir pin t s prior h
  have hpair : loadEvidence pin t s = (some prior, (loadEvidence pin t s).2) := by
    rw [← h]
  have hd0 : ((loadEvidence pin t s).2).docDir = true := by
    rw [loadEvidence_docDir]
    exact hd
  have h1 : addEvidence a pin salt1 t s
      = (Except.ok (), setFsOk (setFile (loadEvidence pin t s).2 t
          (encrypt (encodeItems (a :: prior)) pin salt1)) t) := by
    rw [addEvidence, hpair]
    exact saveEvidence_eq _ _ _ _ _ hd0
  have hload1 := loadEvidence_after_save pin salt1 t (loadEvidence pin t s).2
    (a :: prior) hd0
  have hd1 : (setFsOk (setFile (loadEvidence pin t s).2 t
      (encrypt (encodeItems (a :: prior)) pin salt1)) t).docDir = true := by
    rw [docDir_setFsOk, docDir_setFile]
    exact hd0
  have h2 : addEvidence b pin salt2 t (addEvidence a pin salt1 t s).2
      = (Except.ok (), setFsOk (setFile (setFsOk (setFile (loadEvidence pin t s).2 t
          (encrypt (encodeItems (a :: prior)) pin salt1)) t) t
          (encrypt (encodeItems (b :: a :: prior)) pin salt2)) t) := by
    rw [h1]
    rw [addEvidence, hload1]
    exact saveEvidence_eq _ _ _ _ _ hd1
  have hload2 := loadEvidence_after_save pin salt2 t
    (setFsOk (setFile (loadEvidence pin t s).2 t
      (encrypt (encodeItems (a :: prior)) pin salt1)) t) (b :: a :: prior) hd1
  have hd2 : (setFsOk (setFile (setFsOk (setFile (loadEvidence pin t s).2 t
      (encrypt (encodeItems (a :: prior)) pin salt1)) t) t
      (encrypt (encodeItems (b :: a :: prior)) pin salt2)) t).docDir = true := by
    rw [docDir_setFsOk, docDir_setFile]
    exact hd1
  have h3 : addEvidence c pin salt3 t
        (addEvidence b pin salt2 t (addEvidence a pin salt1 t s).2).2
      = (Except.ok (), setFsOk (setFile (setFsOk (setFile (setFsOk
          (setFile (loadEvidence pin t s).2 t
            (encrypt (encodeItems (a :: prior)) pin salt1)) t) t
          (encrypt (encodeItems (b :: a :: prior)) pin salt2)) t) t
          (encrypt (encodeItems (c :: b :: a :: prior)) pin salt3)) t) := by
    rw [h2]
    rw [addEvidence, hload2]
    exact saveEvidence_eq _ _ _ _ _ hd2
  have hload3 := loadEvidence_after_save pin salt3 t
    (setFsOk (setFile (setFsOk (setFile (loadEvidence pin t s).2 t
      (encrypt (encodeItems (a :: prior)) pin salt1)) t) t
      (encrypt (encodeItems (b :: a :: prior)) pin salt2)) t)
    (c :: b :: a :: prior) hd2
  refine ⟨by rw [h1], by rw [h2], by rw [h3], ?_⟩
  rw [h3, hload3]

theorem c8_prepend_order_witness :
    (loadEvidence "1234" VaultType.secret emptyStore).1 = some []
    ∧ ((addEvidence sampleItem "1234" "S1" VaultType.secret emptyStore).1 = Except.ok ()
      ∧ (addEvidence sampleItem2 "1234" "S2" VaultType.secret
          (addEvidence sampleItem "1234" "S1" VaultType.secret emptyStore).2).1 = Except.ok ()
      ∧ (addEvidence sampleItem3 "1234" "S3" VaultType.secret
          (addEvidence sampleItem2 "1234" "S2" VaultType.secret
            (addEvidence sampleItem "1234" "S1" VaultType.secret emptyStore).2).2).1
          = Except.ok ()
      ∧ (loadEvidence "1234" VaultType.secret
          (addEvidence sampleItem3 "1234" "S3" VaultType.secret
            (addEvidence sampleItem2 "1234" "S2" VaultType.secret
              (addEvidence sampleItem "1234" "S1" VaultType.secret emptyStore).2).2).2).1
        = some [sampleItem3, sampleItem2, sampleItem]) :=
  ⟨by decide,
   c8_prepend_order "1234" VaultType.secret emptyStore "S1" "S2" "S3"
     sampleItem sampleItem2 sampleItem3 [] (by decide)⟩

/-- C4, counterexample: with a present but undecryptable blob,
`loadEvidence` signals failure, yet `refreshEvidence` completes without
surfacing any error - the alert list stays empty and no error value is
returned - and silently replaces the evidence list with the empty list
(`setEvidence(items || [])`).  This falsifies the claim that the UI-facing
wrapper surfaces an error to the caller on load failure. -/
theorem c4_counterexample :
    (loadEvidence "1234" VaultType.secret
        { emptyStore with fileSecret := some "corrupted-blob" }).1 = none
    ∧ refreshEvidence
        ⟨AppMode.vault, [sampleItem], "1234", some VaultType.secret, []⟩
        { emptyStore with fileSecret := some "corrupted-blob" }
      = (⟨AppMode.vault, [], "1234", some VaultType.secret, []⟩,
         { emptyStore with fileSecret := some "corrupted-blob" }) := by
  decide

/-- C4, amended: when `loadEvidence` signals failure during a refresh or
during the refresh inside `unlockVault`, the wrappers do not surface any
error: they coerce the failure to an empty evidence list and change nothing
else - `refreshEvidence` completes normally with `evidence := []` (alerts
untouched), and `unlockVault` still reports success, enters vault mode and
presents `evidence := []`.  Only `addNewEvidence`'s reload path surfaces an
alert on load failure. -/
theorem c4_silent_empty (app : AppState) (s : Store) (t : VaultType) (pin : String) :
    (app.vaultType = some t → app.currentPin ≠ "" →
      (loadEvidence app.currentPin t s).1 = none →
      refreshEvidence app s = ({ app with evidence := [] }, s))
    ∧ ((verifyPin pin s).toVault = some t →
      (loadEvidence pin t s).1 = none →
      unlockVault pin app s
        = (true, { app with
                   currentPin := pin
                   vaultType := some t
                   evidence := []
                   mode := AppMode.vault }, s)) := by
  constructor
  · intro h1 h2 h3
    have heq := loadEvidence_none_eq _ _ _ h3
    simp [refreshEvidence, h1, h2, heq]
  · intro h1 h2
    have heq := loadEvidence_none_eq _ _ _ h2
    simp [unlockVault, h1, heq]

theorem c4_silent_empty_witness :
    ((loadEvidence "1234" VaultType.secret
        { emptyStore with
          fileSecret := some "corrupted-blob"
          secureIsSetup := some "true"
          secureSecretHash := some (hashPin "1234") }).1 = none
      ∧ refreshEvidence ⟨AppMode.vault, [sampleItem], "1234", some VaultType.secret, []⟩
          { emptyStore with
            fileSecret := some "corrupted-blob"
            secureIsSetup := some "true"
            secureSecretHash := some (hashPin "1234") }
        = (⟨AppMode.vault, [], "1234", some VaultType.secret, []⟩,
           { emptyStore with
             fileSecret := some "corrupted-blob"
             secureIsSetup := some "true"
             secureSecretHash := some (hashPin "1234") }))
    ∧ unlockVault "1234" ⟨AppMode.calculator, [], "", none, []⟩
        { emptyStore with
          fileSecret := some "corrupted-blob"
          secureIsSetup := some "true"
          secureSecretHash := some (hashPin "1234") }
      = (true, ⟨AppMode.vault, [], "1234", some VaultType.secret, []⟩,
         { emptyStore with
           fileSecret := some "corrupted-blob"
           secureIsSetup := some "true"
           secureSecretHash := some (hashPin "1234") }) :=
  ⟨⟨by decide,
    (c4_silent_empty ⟨AppMode.vault, [sampleItem], "1234", some VaultType.secret, []⟩
        { emptyStore with
          fileSecret := some "corrupted-blob"
          secureIsSetup := some "true"
          secureSecretHash := some (hashPin "1234") }
        VaultType.secret "1234").1 (by decide) (by decide) (by decide)⟩,
   (c4_silent_empty ⟨AppMode.calculator, [], "", none, []⟩
        { emptyStore with
          fileSecret := some "corrupted-blob"
          secureIsSetup := some "true"
          secureSecretHash := some (hashPin "1234") }
        VaultType.secret "1234").2 (by decide) (by decide)⟩

/-- C7: during setup, completing a decoy entry equal to the secret PIN is
rejected on the spot - the keypad handler resets the entry, shows
`Must differ from secret PIN`, stays on the decoy step and issues no
`setupPins` call, so nothing is hashed or stored; and from any reachable
setup state, whenever the handler does issue `setupPins(sp, dp)`, the decoy
differs from the secret, hence the stored configuration satisfies
`secretPinHash ≠ decoyPinHash`. -/
theorem c7_setup_rejects_duplicate (st : SetupState) (k : String) :
    (st.step = SetupStep.decoy → (st.pin ++ k).length = 4 → k ≠ "delete" →
      st.pin ++ k = st.secretPin →
      handleKeyPress st k
        = ({ st with pin := "", error := "Must differ from secret PIN" }, none))
    ∧ (SetupReachable st → ∀ sp dp (app : AppState) (s : Store),
        (handleKeyPress st k).2 = some (sp, dp) →
        dp ≠ sp
        ∧ (setupPins sp dp app s).2.secureSecretHash
            ≠ (setupPins sp dp app s).2.secureDecoyHash) := by
  constructor
  · exact handleKeyPress_decoy_reject st k
  · intro hr sp dp app s hef
    obtain ⟨hstep, hsp, hdp⟩ := handleKeyPress_effect st k sp dp hef
    have hne : dp ≠ sp := by
      rw [hsp, hdp]
      exact setup_confirmDecoy_ne st hr hstep
    refine ⟨hne, ?_⟩
    simp only [setupPins, saveConfig]
    intro hc
    exact hne (hashPin_inj sp dp (Option.some.inj hc)).symm

theorem c7_setup_rejects_duplicate_witness :
    handleKeyPress ⟨SetupStep.decoy, "123", "1234", "", ""⟩ "4"
        = ({ step := SetupStep.decoy, pin := "", secretPin := "1234",
             decoyPin := "", error := "Must differ from secret PIN" }, none)
    ∧ ("5678" ≠ "1234"
      ∧ (setupPins "1234" "5678" ⟨AppMode.setup, [], "", none, []⟩
            emptyStore).2.secureSecretHash
          ≠ (setupPins "1234" "5678" ⟨AppMode.setup, [], "", none, []⟩
            emptyStore).2.secureDecoyHash) := by
  constructor
  · exact (c7_setup_rejects_duplicate ⟨SetupStep.decoy, "123", "1234", "", ""⟩ "4").1
      (by decide) (by decide) (by decide) (by decide)
  · have h0 := SetupReachable.init
    have h1 := SetupReachable.step _ "1" h0
    have h2 := SetupReachable.step _ "2" h1
    have h3 := SetupReachable.step _ "3" h2
    have h4 := SetupReachable.step _ "4" h3
    have h5 := SetupReachable.step _ "1" h4
    have h6 := SetupReachable.step _ "2" h5
    have h7 := SetupReachable.step _ "3" h6
    have h8 := SetupReachable.step _ "4" h7
    have h9 := SetupReachable.step _ "5" h8
    have h10 := SetupReachable.step _ "6" h9
    have h11 := SetupReachable.step _ "7" h10
    have h12 := SetupReachable.step _ "8" h11
    have h13 := SetupReachable.step _ "5" h12
    have h14 := SetupReachable.step _ "6" h13
    have h15 := SetupReachable.step _ "7" h14
    have hreach : SetupReachable
        (⟨SetupStep.confirmDecoy, "567", "1234", "5678", ""⟩ : SetupState) := h15
    exact (c7_setup_rejects_duplicate
        ⟨SetupStep.confirmDecoy, "567", "1234", "5678", ""⟩ "8").2 hreach
      "1234" "5678" ⟨AppMode.setup, [], "", none, []⟩ emptyStore (by decide)

/-- C9, counterexample: two metadata records built by
`buildForensicMetadata` that agree on the type, the capture time, the
device model, and every id involved (even the builder's internal fresh id)
still receive different integrity hashes when the clock read inside
`computeIntegrityHash` differs, so the same composite does not yield the
same fingerprint; and the stored hash is not the hash of the composite
built from the item's own id (the builder hashes a fresh internal
`generateId()` instead). -/
theorem c9_counterexample :
    (buildForensicMetadata "note" BuildExtras.empty "2024-01-01T00:00:00.000Z" 0 "UTC"
        ⟨"Apple", "iPhone 12", "iOS", "17", "My Phone"⟩ 5 "rnd" 6 "T" "R").integrityHash
      ≠ (buildForensicMetadata "note" BuildExtras.empty "2024-01-01T00:00:00.000Z" 0 "UTC"
        ⟨"Apple", "iPhone 12", "iOS", "17", "My Phone"⟩ 5 "rnd" 7 "T" "R").integrityHash
    ∧ (buildForensicMetadata "note" BuildExtras.empty "2024-01-01T00:00:00.000Z" 0 "UTC"
        ⟨"Apple", "iPhone 12", "iOS", "17", "My Phone"⟩ 5 "rnd" 6 "T" "R").integrityHash
      ≠ some (claimedIntegrityHash "note" "2024-01-01T00:00:00.000Z" "iPhone 12" "8xyz") := by
  decide

/-- C9, amended: the integrity hash of a metadata record built by
`buildForensicMetadata` is the digest of the composite of the type, the
capture time, the device model and a freshly generated internal id (not the
item's id), additionally salted with the clock value read inside
`computeIntegrityHash` - so it is not recomputable from the item's fields
alone. -/
theorem c9_integrity_hash (type : String) (extras : BuildExtras) (nowISO : String)
    (nowUnix : Int) (tz : String) (device : DeviceInfo) (idNow : Int)
    (idRand : String) (hashNow : Int) (cocTime cocRand : String) :
    (buildForensicMetadata type extras nowISO nowUnix tz device idNow idRand
        hashNow cocTime cocRand).integrityHash
      = some (sha256 (type ++ "_" ++ nowISO ++ "_" ++ device.model ++ "_"
          ++ generateId idNow idRand ++ "_integrity_" ++ toString hashNow)) :=
  rfl

end CalcPro
